import Mathlib

/-!
Shallow embedding of the CraftMoon launcher (`src/main.rs`) and proofs about
its update decision and patch-application pipeline.

Modelling conventions:
* Byte buffers are `List Nat`.
* The HTTP transport and the opaque bsdiff / bzip2 primitives are an
  environment `Env` of functions; a failing call returns `none`.
* The on-disk target executable is an `Option Bytes` (`none` = unreadable /
  absent file).
* The UI status channel (`upgrade_in_event_loop`) is a no-op in the model;
  temp-file removal failure is logged only in the source and has no effect
  on control flow, so it is not modelled.
-/

namespace CraftMoon

/-- Byte buffers, as read from / written to disk. -/
abbrev Bytes := List Nat

/-- `struct Asset` from `main.rs`. -/
structure Asset where
  id : Nat
  name : String
  browser_download_url : String
  size : Nat
  digest : Option String
deriving DecidableEq

/-- `struct Release` from `main.rs`. -/
structure Release where
  id : Nat
  body : String
  tag_name : String
  assets : List Asset
deriving DecidableEq

/-- Rust `str::ends_with`, modelled on the string's character sequence. -/
def strEndsWith (s suffix : String) : Bool := suffix.data.isSuffixOf s.data

/-- `asset.name.ends_with(".exe")`: the full-artifact asset predicate. -/
def isExeName (a : Asset) : Bool := strEndsWith a.name ".exe"

/-- `asset.name.ends_with(".patch")`: the incremental-patch asset predicate. -/
def isPatchName (a : Asset) : Bool := strEndsWith a.name ".patch"

/-- `release.assets.iter().find(|&asset| asset.name.ends_with(".exe"))`. -/
def findExeAsset (r : Release) : Option Asset := r.assets.find? isExeName

/-- `release.assets.iter().find(|&asset| asset.name.ends_with(".patch"))`. -/
def findPatchAsset (r : Release) : Option Asset := r.assets.find? isPatchName

/-- The external collaborators of the core, as opaque functions:
the HTTP download of a URL's body, the bzip2 codec and the bsdiff
primitives.  A `none` result models the corresponding failure
(transport / non-success status, decompression error, primitive error). -/
structure Env where
  download : String → Option Bytes
  compress : Bytes → Bytes
  decompress : Bytes → Option Bytes
  bsdiff : Bytes → Bytes → Option Bytes
  bspatch : Bytes → Bytes → Option Bytes

/-- An environment in which every download, decompression and patch
application succeeds. -/
def TotalEnv (env : Env) : Prop :=
  (∀ url, (env.download url).isSome) ∧
  (∀ b, (env.decompress b).isSome) ∧
  ∀ old patch, (env.bspatch old patch).isSome

/-- `update_game`, lines 186-192: `releases.iter().position(|release| ...)`,
the first release whose first `.exe` asset's digest equals `exe_hash` as
`Option`s (Rust compares `Option<String> == Option<String>`). -/
def installedReleaseIndex (releases : List Release) (exeHash : Option String) :
    Option Nat :=
  releases.findIdx? fun release =>
    (findExeAsset release).any fun asset => asset.digest == exeHash

/-- `update_game`, lines 197-207: `releases.iter().rev().skip(releases.len() - k)`
mapped over the `.patch` asset lookup. -/
def patchAssets (releases : List Release) (k : Nat) : List (Option Asset) :=
  (releases.reverse.drop (releases.length - k)).map findPatchAsset

/-- `patch_file` (lines 391-402): read the target file, read and
bzip2-decompress the downloaded patch, run `bsdiff::patch`, and return the
bytes written back to the target path.  `none` models the `Err` return
(unreadable target, decompression failure, or primitive failure), in which
case the target file is not written. -/
def patch_file (env : Env) (target : Option Bytes) (compressedPatch : Bytes) :
    Option Bytes :=
  match target with
  | none => none
  | some old =>
    match env.decompress compressedPatch with
    | none => none
    | some patch => env.bspatch old patch

/-- `diff_files` (lines 404-424): `bsdiff::diff` then bzip2-compress at best
ratio; the result is the byte content written to the patch file. -/
def diff_files (env : Env) (old new : Bytes) : Option Bytes :=
  match env.bsdiff old new with
  | none => none
  | some patch => some (env.compress patch)

/-- Result of running the patch loop of `update_game` (lines 211-246):
the final target-file content, the `reinstall_game` flag, and the assets
whose bytes were successfully downloaded, in order. -/
structure ChainResult where
  target : Option Bytes
  reinstall : Bool
  downloaded : List Asset
deriving DecidableEq

/-- The `for (index, asset) in patch_assets.iter().enumerate()` loop of
`update_game` (lines 211-246): a missing patch asset, a failed download or
a failed `patch_file` sets `reinstall_game` and breaks; a successful step
leaves the target at the patched bytes and continues. -/
def applyPatchChain (env : Env) : Option Bytes → List (Option Asset) → ChainResult
  | target, [] => ⟨target, false, []⟩
  | target, none :: _ => ⟨target, true, []⟩
  | target, some a :: rest =>
    match env.download a.browser_download_url with
    | none => ⟨target, true, []⟩
    | some bytes =>
      match patch_file env target bytes with
      | none => ⟨target, true, [a]⟩
      | some newTarget =>
        let r := applyPatchChain env (some newTarget) rest
        ⟨r.target, r.reinstall, a :: r.downloaded⟩

/-- The reinstall branch of `update_game` (lines 257-269): find the latest
release's `.exe` asset and download it over the target path; on a missing
asset or a failed download the error is logged and the target is untouched
(`download_file` fetches the whole body before creating the file).
Returns the resulting target content and the successfully downloaded assets. -/
def reinstallStep (env : Env) (latest : Release) (target : Option Bytes) :
    Option Bytes × List Asset :=
  match findExeAsset latest with
  | none => (target, [])
  | some a =>
    match env.download a.browser_download_url with
    | none => (target, [])
    | some bytes => (some bytes, [a])

/-- Result of `update_game`: whether the unchecked `&releases[0]` indexing
panicked, whether the reinstall branch ran, the final target content, and
the successfully downloaded assets in order. -/
structure GameResult where
  panicked : Bool
  reinstallTaken : Bool
  target : Option Bytes
  downloaded : List Asset
deriving DecidableEq

/-- `update_game` (lines 179-271): locate the installed release, run the
patch chain, and fall back to reinstalling on a missing match, a missing
patch asset, or any step failure. -/
def update_game (env : Env) (releases : List Release) (target : Option Bytes)
    (exeHash : Option String) : GameResult :=
  let pre : ChainResult :=
    match installedReleaseIndex releases exeHash with
    | none => ⟨target, true, []⟩
    | some k => applyPatchChain env target (patchAssets releases k)
  if pre.reinstall then
    match releases with
    | [] => ⟨true, true, pre.target, pre.downloaded⟩
    | latest :: _ =>
      let r := reinstallStep env latest pre.target
      ⟨false, true, r.1, pre.downloaded ++ r.2⟩
  else ⟨false, false, pre.target, pre.downloaded⟩

/-- `check_for_updated_release` (lines 295-339).  `fetched` is the result of
`get_releases` (`none` = `CatalogError`: transport failure, non-success
status, unparsable body, or empty list, cf. lines 341-361); `currentVersion`
models the compiled-in `CARGO_PKG_VERSION` string. -/
def check_for_updated_release (fetched : Option (List Release))
    (currentVersion : String) (selfUpdate : Bool) (exeHash : Option String) :
    List Release × Bool :=
  match fetched with
  | none => ([], true)
  | some releases =>
    match releases with
    | [] => ([], true)
    | latest :: rest =>
      let isRunningLatest :=
        if selfUpdate then currentVersion == latest.tag_name
        else
          match exeHash with
          | some h =>
            (findExeAsset latest).any fun asset => asset.digest == some h
          | none => false
      (latest :: rest, isRunningLatest)

/-- Result of the game-update phase of `main`'s worker thread
(lines 97-115 followed by line 117): whether an unchecked indexing
panicked, the final target content, the successfully downloaded assets,
and whether control reaches the `launch_game` call. -/
structure FlowResult where
  panicked : Bool
  target : Option Bytes
  downloaded : List Asset
  reachedLaunch : Bool
deriving DecidableEq

/-- The game-update phase of `main` (lines 97-115): run the version check
and, when not running the latest, `update_game`; control then falls through
to `launch_game` (line 117) unless indexing panicked. -/
def gamePhase (env : Env) (fetched : Option (List Release))
    (exeHash : Option String) (target : Option Bytes) : FlowResult :=
  let checked := check_for_updated_release fetched "" false exeHash
  if checked.2 then ⟨false, target, [], true⟩
  else
    let g := update_game env checked.1 target exeHash
    ⟨g.panicked, g.target, g.downloaded, !g.panicked⟩

/-- How a modelled code path leaves the current process: it either returns
to its caller (`continues`) or calls `std::process::exit` with a code. -/
inductive ExitOutcome where
  | continues
  | exitCode (code : Nat)
deriving DecidableEq

/-- A process-level action's result: its exit outcome together with the
`(program, args)` spawn attempts it made, in order. -/
structure ProcResult where
  outcome : ExitOutcome
  spawned : List (String × List String)
deriving DecidableEq

/-- `restart_program` (lines 372-389): resolve the current executable
(failure is logged and the function returns), spawn it with the
`--no-self-update` argument, then `exit(0)` on success and `exit(1)` on a
spawn failure.  `spawnOk program args` models whether `Command::spawn`
succeeds. -/
def restart_program (currentExe : Option String)
    (spawnOk : String → List String → Bool) : ProcResult :=
  match currentExe with
  | none => ⟨.continues, []⟩
  | some exe =>
    if spawnOk exe ["--no-self-update"] then
      ⟨.exitCode 0, [(exe, ["--no-self-update"])]⟩
    else ⟨.exitCode 1, [(exe, ["--no-self-update"])]⟩

/-- `update_launcher` (lines 125-177): find the `.exe` asset, resolve the
current executable path/name, download the new binary to a temp path,
`self_replace` it, delete the temp copy, and restart.  Every failure before
the restart is logged and the function returns (`continues`).
`currentExe` models `std::env::current_exe` plus `file_name` resolution;
`selfReplaceOk` and `removeOk` model `self_replace::self_replace` and
`std::fs::remove_file`. -/
def update_launcher (env : Env) (release : Release) (currentExe : Option String)
    (selfReplaceOk : Bool) (removeOk : Bool)
    (spawnOk : String → List String → Bool) : ProcResult :=
  match findExeAsset release with
  | none => ⟨.continues, []⟩
  | some a =>
    match currentExe with
    | none => ⟨.continues, []⟩
    | some exe =>
      match env.download a.browser_download_url with
      | none => ⟨.continues, []⟩
      | some _ =>
        if selfReplaceOk then
          if removeOk then restart_program (some exe) spawnOk
          else ⟨.continues, []⟩
        else ⟨.continues, []⟩

/-- `launch_game` (lines 363-370): spawn the target executable with no
arguments; `exit(0)` on success, `exit(1)` on failure. -/
def launch_game (spawnOk : String → List String → Bool) (exePath : String) :
    ProcResult :=
  if spawnOk exePath [] then ⟨.exitCode 0, [(exePath, [])]⟩
  else ⟨.exitCode 1, [(exePath, [])]⟩

/-- Result of the worker thread's self-update phase followed by the final
launch: whether the self-update check ran, whether the unchecked
`&releases[0]` indexing panicked, the exit outcome, and the spawn attempts. -/
structure WorkerResult where
  checkedSelf : Bool
  panicked : Bool
  outcome : ExitOutcome
  spawned : List (String × List String)
deriving DecidableEq

/-- The worker thread of `main` restricted to its self-update phase
(lines 86-93) and the final `launch_game` (line 117): when
`noSelfUpdate` (the `--no-self-update` flag) is set the check is skipped
entirely; otherwise an out-of-date result runs `update_launcher` on
`releases[0]`, and control reaches `launch_game` only when the self-update
phase returns.  The game-update phase in between is modelled separately by
`gamePhase` and never exits the process. -/
def workerFlow (noSelfUpdate : Bool) (fetched : Option (List Release))
    (currentVersion : String) (env : Env) (currentExe : Option String)
    (selfReplaceOk removeOk : Bool) (spawnOk : String → List String → Bool)
    (gameExePath : String) : WorkerResult :=
  if noSelfUpdate then
    let l := launch_game spawnOk gameExePath
    ⟨false, false, l.outcome, l.spawned⟩
  else
    let checked := check_for_updated_release fetched currentVersion true none
    if checked.2 then
      let l := launch_game spawnOk gameExePath
      ⟨true, false, l.outcome, l.spawned⟩
    else
      match checked.1 with
      | [] => ⟨true, true, .continues, []⟩
      | r :: _ =>
        let u := update_launcher env r currentExe selfReplaceOk removeOk spawnOk
        match u.outcome with
        | .continues =>
          let l := launch_game spawnOk gameExePath
          ⟨true, false, l.outcome, u.spawned ++ l.spawned⟩
        | e => ⟨true, false, e, u.spawned⟩

/-! Concrete fixtures used by witnesses and counterexamples. -/

/-- Full artifact of the oldest demo release. -/
def exeAssetR0 : Asset := ⟨10, "CraftMoon.exe", "url-r0-exe", 100, some "sha256:r0"⟩

/-- Full artifact of the middle demo release. -/
def exeAssetR1 : Asset := ⟨11, "CraftMoon.exe", "url-r1-exe", 100, some "sha256:r1"⟩

/-- Patch asset of the middle demo release (spec scenario's `P1`). -/
def patchAssetR1 : Asset := ⟨12, "CraftMoon.patch", "url-r1-patch", 10, some "sha256:p1"⟩

/-- Full artifact of the newest demo release. -/
def exeAssetR2 : Asset := ⟨13, "CraftMoon.exe", "url-r2-exe", 100, some "sha256:r2"⟩

/-- Patch asset of the newest demo release (spec scenario's `P2`). -/
def patchAssetR2 : Asset := ⟨14, "CraftMoon.patch", "url-r2-patch", 10, some "sha256:p2"⟩

/-- Oldest demo release `R0`. -/
def demoR0 : Release := ⟨0, "", "1.0", [exeAssetR0]⟩

/-- Middle demo release `R1`, carrying patch `P1`. -/
def demoR1 : Release := ⟨1, "", "1.1", [exeAssetR1, patchAssetR1]⟩

/-- Newest demo release `R2`, carrying patch `P2`. -/
def demoR2 : Release := ⟨2, "", "1.2", [exeAssetR2, patchAssetR2]⟩

/-- The spec's scenario catalog `[R2, R1, R0]`, newest first. -/
def demoReleases : List Release := [demoR2, demoR1, demoR0]

/-- An environment in which every external call succeeds. -/
def demoEnv : Env :=
  ⟨fun _ => some [0], id, fun b => some b, fun _ n => some n, fun _ p => some p⟩

/-- An environment whose downloads all fail. -/
def failDownloadEnv : Env :=
  ⟨fun _ => none, id, fun b => some b, fun _ n => some n, fun _ p => some p⟩

/-- A release whose `.exe` asset has no digest. -/
def noDigestRelease : Release :=
  ⟨7, "", "0.9", [⟨30, "CraftMoon.exe", "url-nodigest", 5, none⟩]⟩

/-- A release with no `.exe` asset at all. -/
def noExeRelease : Release :=
  ⟨8, "", "0.8", [⟨31, "CraftMoon.patch", "url-patch-only", 5, some "sha256:x"⟩]⟩

/-- A spawn oracle under which every `Command::spawn` fails. -/
def spawnNever : String → List String → Bool := fun _ _ => false

/-- A spawn oracle under which every `Command::spawn` succeeds. -/
def spawnAlways : String → List String → Bool := fun _ _ => true

/-- Every external call of `demoEnv` succeeds. -/
theorem demoEnv_total : TotalEnv demoEnv :=
  ⟨fun _ => rfl, fun _ => rfl, fun _ _ => rfl⟩

/-! Helper lemmas. -/

/-- A successful `findIdx?` returns an index inside the list. -/
theorem findIdx_opt_lt_length {α : Type} (p : α → Bool) :
    ∀ (l : List α) (k : Nat), l.findIdx? p = some k → k < l.length := by
  intro l
  induction l with
  | nil => intro k h; simp [List.findIdx?] at h
  | cons x xs ih =>
    intro k h
    rw [List.findIdx?_cons] at h
    by_cases hp : p x
    · simp only [hp, if_true, Option.some.injEq] at h
      simp only [List.length_cons]
      omega
    · simp only [hp, Bool.false_eq_true, if_false, List.findIdx?_succ,
        Option.map_eq_some'] at h
      obtain ⟨j, hj, rfl⟩ := h
      have hlt := ih j hj
      simp only [List.length_cons]
      omega

/-- The matched installed-release index lies inside the catalog. -/
theorem installedReleaseIndex_lt_length (releases : List Release)
    (exeHash : Option String) (k : Nat)
    (h : installedReleaseIndex releases exeHash = some k) :
    k < releases.length :=
  findIdx_opt_lt_length _ releases k h

/-- The code's `rev().skip(len - k)` plan equals the spec's
"releases `k-1 .. 0`, oldest to newest" description. -/
theorem patchAssets_eq_take_reverse (releases : List Release) (k : Nat) :
    patchAssets releases k = ((releases.take k).reverse).map findPatchAsset := by
  unfold patchAssets
  rw [List.reverse_take]

/-- In a total environment, a patch chain whose every entry is present runs
to completion: no reinstall is signalled and exactly the plan's assets are
downloaded, in order. -/
theorem applyPatchChain_total (env : Env) (henv : TotalEnv env) :
    ∀ (l : List (Option Asset)) (t : Bytes), (∀ x ∈ l, x.isSome) →
      (applyPatchChain env (some t) l).reinstall = false ∧
      (applyPatchChain env (some t) l).downloaded = l.filterMap id := by
  intro l
  induction l with
  | nil => intro t _; exact ⟨rfl, rfl⟩
  | cons x xs ih =>
    intro t hall
    cases x with
    | none =>
      have hmem : (none : Option Asset) ∈ none :: xs := by simp
      have := hall none hmem
      simp at this
    | some a =>
      obtain ⟨bytes, hb⟩ :=
        Option.isSome_iff_exists.mp (henv.1 a.browser_download_url)
      obtain ⟨p, hp⟩ := Option.isSome_iff_exists.mp (henv.2.1 bytes)
      obtain ⟨t2, ht2⟩ := Option.isSome_iff_exists.mp (henv.2.2 t p)
      have hpf : patch_file env (some t) bytes = some t2 := by
        simp [patch_file, hp, ht2]
      have hrest : ∀ x ∈ xs, x.isSome := by
        intro x hx
        exact hall x (List.mem_cons_of_mem _ hx)
      have hih := ih t2 hrest
      simp only [applyPatchChain, hb, hpf]
      constructor
      · exact hih.1
      · simp only [List.filterMap_cons, id]
        rw [hih.2]

/-- In a total environment a chain started on a readable target signals
reinstall exactly when the plan has a gap (a release without a patch asset). -/
theorem applyPatchChain_reinstall_iff (env : Env) (henv : TotalEnv env) :
    ∀ (l : List (Option Asset)) (t : Bytes),
      ((applyPatchChain env (some t) l).reinstall = true ↔ none ∈ l) := by
  intro l
  induction l with
  | nil => intro t; simp [applyPatchChain]
  | cons x xs ih =>
    intro t
    cases x with
    | none => simp [applyPatchChain]
    | some a =>
      obtain ⟨bytes, hb⟩ :=
        Option.isSome_iff_exists.mp (henv.1 a.browser_download_url)
      obtain ⟨p, hp⟩ := Option.isSome_iff_exists.mp (henv.2.1 bytes)
      obtain ⟨t2, ht2⟩ := Option.isSome_iff_exists.mp (henv.2.2 t p)
      have hpf : patch_file env (some t) bytes = some t2 := by
        simp [patch_file, hp, ht2]
      simp only [applyPatchChain, hb, hpf]
      rw [ih t2]
      simp

/-- In every branch of `update_game`, the reinstall path is taken exactly
when either no release matched or the patch loop set `reinstall_game`. -/
theorem update_game_reinstallTaken (env : Env) (releases : List Release)
    (target : Option Bytes) (exeHash : Option String) :
    (update_game env releases target exeHash).reinstallTaken =
      (match installedReleaseIndex releases exeHash with
        | none => true
        | some k => (applyPatchChain env target (patchAssets releases k)).reinstall) := by
  unfold update_game
  cases hidx : installedReleaseIndex releases exeHash with
  | none => cases releases <;> simp
  | some k =>
    cases hr : (applyPatchChain env target (patchAssets releases k)).reinstall with
    | false => simp [hr]
    | true => cases releases <;> simp [hr]

/-- `update_game` on a non-empty catalog never reaches the
empty-list indexing panic. -/
theorem update_game_cons_not_panicked (env : Env) (r : Release)
    (rest : List Release) (target : Option Bytes) (exeHash : Option String) :
    (update_game env (r :: rest) target exeHash).panicked = false := by
  unfold update_game
  cases hidx : installedReleaseIndex (r :: rest) exeHash <;>
    · simp only
      split <;> rfl

/-! Claim theorems. -/

/-- C1: when the installed digest matches the full-artifact digest of
`releases[k]` (first match, as `position` computes it), the planned patch
list is exactly the `.patch`-asset lookups of `releases[k-1] .. releases[0]`
in oldest-to-newest order (the reverse of catalog order), it has exactly
`k` entries, and in an environment where every step succeeds the pipeline
downloads exactly those patch assets in that order without signalling
reinstall; for `k = 0` the plan is empty. -/
theorem c1_patch_plan (env : Env) (releases : List Release)
    (exeHash : Option String) (t0 : Bytes) (k : Nat)
    (hk : installedReleaseIndex releases exeHash = some k)
    (henv : TotalEnv env)
    (hpatch : ∀ r ∈ releases.take k, (findPatchAsset r).isSome) :
    patchAssets releases k = ((releases.take k).reverse).map findPatchAsset ∧
    (patchAssets releases k).length = k ∧
    (applyPatchChain env (some t0) (patchAssets releases k)).downloaded =
      ((releases.take k).reverse).filterMap findPatchAsset ∧
    (applyPatchChain env (some t0) (patchAssets releases k)).reinstall = false ∧
    (k = 0 → patchAssets releases k = []) := by
  have heq := patchAssets_eq_take_reverse releases k
  have hlen : (patchAssets releases k).length = k := by
    rw [heq]
    have hlt := installedReleaseIndex_lt_length releases exeHash k hk
    simp [List.length_take]
    omega
  have hall : ∀ x ∈ patchAssets releases k, x.isSome := by
    rw [heq]
    intro x hx
    rw [List.mem_map] at hx
    obtain ⟨r, hr, rfl⟩ := hx
    exact hpatch r (List.mem_reverse.mp hr)
  have htot := applyPatchChain_total env henv (patchAssets releases k) t0 hall
  refine ⟨heq, hlen, ?_, htot.1, ?_⟩
  · rw [htot.2, heq, List.filterMap_map]
    rfl
  · intro h0
    subst h0
    rw [heq]
    simp

/-- C1 witness: the spec scenario `[R2(P2), R1(P1), R0]` with the installed
digest matching `R0`: the plan is `[P1, P2]`-shaped and the pipeline
downloads exactly those patches in that order. -/
theorem c1_witness :
    patchAssets demoReleases 2 =
      ((demoReleases.take 2).reverse).map findPatchAsset ∧
    (applyPatchChain demoEnv (some []) (patchAssets demoReleases 2)).downloaded =
      ((demoReleases.take 2).reverse).filterMap findPatchAsset ∧
    (applyPatchChain demoEnv (some []) (patchAssets demoReleases 2)).downloaded =
      [patchAssetR1, patchAssetR2] := by
  have h := c1_patch_plan demoEnv demoReleases (some "sha256:r0") [] 2
    (by decide) demoEnv_total (by decide)
  refine ⟨h.1, h.2.2.1, ?_⟩
  rw [h.2.2.1]
  decide

/-- C2 counterexample: the claim demands that an absent installed identity
(unreadable file / first install) match no release, making the planner
reinstall.  The code compares `Option<String> == Option<String>`, so a
release whose `.exe` asset has no digest does match an absent identity:
here `position` returns index 0 and `update_game` does not take the
reinstall path. -/
theorem c2_counterexample :
    installedReleaseIndex [noDigestRelease] none = some 0 ∧
    (update_game demoEnv [noDigestRelease] none none).reinstallTaken = false := by
  constructor <;> decide

/-- C2 (amended): in an environment where every download, decompression and
patch application succeeds and the target file is readable, `update_game`
takes the reinstall path precisely when the installed identity
`Option`-equals no release's `.exe`-asset digest (so an absent identity
does match a release whose `.exe` asset lacks a digest) or some release
strictly newer than the first match lacks a `.patch` asset. -/
theorem c2_reinstall_iff (env : Env) (releases : List Release) (t0 : Bytes)
    (exeHash : Option String) (henv : TotalEnv env) :
    ((update_game env releases (some t0) exeHash).reinstallTaken = true ↔
      ∀ k, installedReleaseIndex releases exeHash = some k →
        none ∈ patchAssets releases k) := by
  rw [update_game_reinstallTaken]
  cases hidx : installedReleaseIndex releases exeHash with
  | none =>
    simp only
    constructor
    · intro _ k hk
      exact Option.noConfusion hk
    · intro _
      trivial
  | some k =>
    simp only
    rw [applyPatchChain_reinstall_iff env henv (patchAssets releases k) t0]
    constructor
    · intro hmem j hj
      have hkj : k = j := Option.some.inj hj
      rw [← hkj]
      exact hmem
    · intro h
      exact h k rfl

/-- C2 witness: an identity matching no release (the only release's `.exe`
asset is absent) makes `update_game` take the reinstall path. -/
theorem c2_witness :
    (update_game demoEnv [noExeRelease] (some []) (some "sha256:zzz")).reinstallTaken
      = true := by
  have h0 : installedReleaseIndex [noExeRelease] (some "sha256:zzz") = none := by
    decide
  exact (c2_reinstall_iff demoEnv [noExeRelease] [] (some "sha256:zzz")
    demoEnv_total).mpr (fun k hk => Option.noConfusion (h0.symm.trans hk))

/-- C3: the version decision returns up-to-date on an empty catalog; in
self-update mode it is up to date exactly when the compiled-in version
string equals the newest release's tag; in game mode it is up to date
exactly when the installed digest and the first `.exe` asset of the newest
release and that asset's digest are all present and the digests are equal
(any absence yields "not up to date"). -/
theorem c3_version_decision (fetched : List Release) (ver : String)
    (su : Bool) (exeHash : Option String) :
    (fetched = [] → (check_for_updated_release (some fetched) ver su exeHash).2 = true) ∧
    (∀ latest rest, fetched = latest :: rest →
      ((check_for_updated_release (some fetched) ver true exeHash).2 = true ↔
        ver = latest.tag_name)) ∧
    (∀ latest rest, fetched = latest :: rest →
      ((check_for_updated_release (some fetched) ver false exeHash).2 = true ↔
        ∃ h a, exeHash = some h ∧ findExeAsset latest = some a ∧
          a.digest = some h)) := by
  refine ⟨?_, ?_, ?_⟩
  · intro h
    subst h
    rfl
  · intro latest rest h
    subst h
    simp only [check_for_updated_release, if_true]
    exact ⟨fun hb => by simpa using hb, fun hb => by simp [hb]⟩
  · intro latest rest h
    subst h
    cases hx : exeHash with
    | none =>
      simp [check_for_updated_release]
    | some hh =>
      simp only [check_for_updated_release, if_false]
      cases hfe : findExeAsset latest with
      | none =>
        simp [Option.any]
      | some a =>
        simp only [Option.any]
        constructor
        · intro hb
          exact ⟨hh, a, rfl, rfl, by simpa using hb⟩
        · rintro ⟨h1, a1, he1, he2, he3⟩
          have hh1 : h1 = hh := by
            simpa using he1.symm
          have ha1 : a1 = a := by
            simpa using he2.symm
          subst hh1
          subst ha1
          simp [he3]

/-- C3 witness: the self-update scenario from the spec, running version
equal to the newest tag. -/
theorem c3_witness :
    (check_for_updated_release (some [demoR2]) "1.2" true none).2 = true :=
  ((c3_version_decision [demoR2] "1.2" true none).2.1 demoR2 [] rfl).mpr rfl

/-- If a prefix of the plan runs without failure, the whole chain is that
prefix followed by the chain on the rest, started from the prefix's final
target. -/
theorem applyPatchChain_append (env : Env) :
    ∀ (l1 : List (Option Asset)) (t t1 : Option Bytes) (ds : List Asset),
      applyPatchChain env t l1 = ⟨t1, false, ds⟩ →
      ∀ l2, applyPatchChain env t (l1 ++ l2) =
        ⟨(applyPatchChain env t1 l2).target,
          (applyPatchChain env t1 l2).reinstall,
          ds ++ (applyPatchChain env t1 l2).downloaded⟩ := by
  intro l1
  induction l1 with
  | nil =>
    intro t t1 ds h l2
    have ht : t = t1 := congrArg ChainResult.target h
    have hds : ds = [] := (congrArg ChainResult.downloaded h).symm
    subst ht
    subst hds
    simp
  | cons x xs ih =>
    intro t t1 ds h l2
    cases x with
    | none =>
      have : (false : Bool) = true := (congrArg ChainResult.reinstall h).symm
      exact absurd this (by simp)
    | some a =>
      simp only [applyPatchChain] at h
      cases hb : env.download a.browser_download_url with
      | none =>
        simp only [hb] at h
        have : (false : Bool) = true := (congrArg ChainResult.reinstall h).symm
        exact absurd this (by simp)
      | some bytes =>
        simp only [hb] at h
        cases hpf : patch_file env t bytes with
        | none =>
          simp only [hpf] at h
          have : (false : Bool) = true := (congrArg ChainResult.reinstall h).symm
          exact absurd this (by simp)
        | some t2 =>
          simp only [hpf] at h
          rcases hrec : applyPatchChain env (some t2) xs with ⟨rt, rr, rd⟩
          rw [hrec] at h
          have hrt : rt = t1 := congrArg ChainResult.target h
          have hrr : rr = false := congrArg ChainResult.reinstall h
          have hds : ds = a :: rd := (congrArg ChainResult.downloaded h).symm
          have hrec2 : applyPatchChain env (some t2) xs = ⟨t1, false, rd⟩ := by
            rw [hrec, hrt, hrr]
          have hstep := ih (some t2) t1 rd hrec2 l2
          rw [hds]
          simp only [List.cons_append, applyPatchChain, hb, hpf, hstep,
            List.append_eq]

/-- C4: if every step before some plan entry succeeds and that entry's
download, decompression or patch application fails, the remaining steps
are skipped (the chain result does not depend on them), the reinstall
fallback is signalled, and the target file is left exactly as the last
successful step produced it. -/
theorem c4_step_failure_aborts (env : Env) (t : Option Bytes)
    (l1 l2 : List (Option Asset)) (a : Asset) (t1 : Option Bytes)
    (ds : List Asset)
    (h1 : applyPatchChain env t l1 = ⟨t1, false, ds⟩)
    (hf : env.download a.browser_download_url = none ∨
      ∃ bytes, env.download a.browser_download_url = some bytes ∧
        patch_file env t1 bytes = none) :
    applyPatchChain env t (l1 ++ some a :: l2) =
      applyPatchChain env t (l1 ++ [some a]) ∧
    (applyPatchChain env t (l1 ++ some a :: l2)).target = t1 ∧
    (applyPatchChain env t (l1 ++ some a :: l2)).reinstall = true := by
  have hfail : applyPatchChain env t1 (some a :: l2) =
      applyPatchChain env t1 [some a] ∧
      (applyPatchChain env t1 (some a :: l2)).target = t1 ∧
      (applyPatchChain env t1 (some a :: l2)).reinstall = true := by
    rcases hf with hdl | ⟨bytes, hdl, hpf⟩
    · simp [applyPatchChain, hdl]
    · simp [applyPatchChain, hdl, hpf]
  have hall := applyPatchChain_append env l1 t t1 ds h1 (some a :: l2)
  have hone := applyPatchChain_append env l1 t t1 ds h1 [some a]
  refine ⟨?_, ?_, ?_⟩
  · rw [hall, hone, hfail.1]
  · rw [hall]
    exact hfail.2.1
  · rw [hall]
    exact hfail.2.2

/-- C4 witness: a two-step plan whose first download fails: the second step
is skipped, reinstall is signalled, and the target keeps its prior bytes. -/
theorem c4_witness :
    applyPatchChain failDownloadEnv (some [5]) ([] ++ some patchAssetR1 :: [some patchAssetR2]) =
      applyPatchChain failDownloadEnv (some [5]) ([] ++ [some patchAssetR1]) ∧
    (applyPatchChain failDownloadEnv (some [5]) ([] ++ some patchAssetR1 :: [some patchAssetR2])).target
      = some [5] ∧
    (applyPatchChain failDownloadEnv (some [5]) ([] ++ some patchAssetR1 :: [some patchAssetR2])).reinstall
      = true :=
  c4_step_failure_aborts failDownloadEnv (some [5]) [] [some patchAssetR2]
    patchAssetR1 (some [5]) [] rfl (Or.inl rfl)

/-- C5: a catalog fetch failure (transport error, non-success status,
unparsable body, or empty list — all `none` here) is reported as "already
up to date", the game-update phase then downloads nothing and leaves the
target file untouched, and control still reaches `launch_game`; the single
`get_releases` call in `check_for_updated_release` is never retried. -/
theorem c5_catalog_failure (env : Env) (ver : String) (su : Bool)
    (exeHash : Option String) (target : Option Bytes) (curExe : Option String)
    (selfReplaceOk removeOk : Bool) (spawnOk : String → List String → Bool)
    (gamePath : String) :
    check_for_updated_release none ver su exeHash = ([], true) ∧
    gamePhase env none exeHash target = ⟨false, target, [], true⟩ ∧
    workerFlow false none ver env curExe selfReplaceOk removeOk spawnOk gamePath =
      ⟨true, false, (launch_game spawnOk gamePath).outcome,
        (launch_game spawnOk gamePath).spawned⟩ :=
  ⟨rfl, rfl, rfl⟩

/-- C6: applying the patch-application pipeline (`patch_file`:
decompress, then binary patch) to the patch-generation tool's output
(`diff_files`: binary diff, then compress) reproduces the "new" buffer
byte for byte, given the round-trip laws of the opaque codec and
diff/patch primitives. -/
theorem c6_roundtrip (env : Env) (old new cp : Bytes)
    (hcodec : ∀ b, env.decompress (env.compress b) = some b)
    (hprim : ∀ p, env.bsdiff old new = some p → env.bspatch old p = some new)
    (hgen : diff_files env old new = some cp) :
    patch_file env (some old) cp = some new := by
  unfold diff_files at hgen
  cases hd : env.bsdiff old new with
  | none =>
    rw [hd] at hgen
    exact Option.noConfusion hgen
  | some p =>
    rw [hd] at hgen
    have hcp : cp = env.compress p := (Option.some.inj hgen).symm
    subst hcp
    unfold patch_file
    rw [hcodec p]
    exact hprim p hd

/-- C6 witness: a concrete environment whose primitives satisfy the
round-trip laws, on the buffers `old = [1]`, `new = [2]`. -/
theorem c6_witness : patch_file demoEnv (some [1]) [2] = some [2] :=
  c6_roundtrip demoEnv [1] [2] [2] (fun _ => rfl)
    (fun p hp => by
      have hp2 : ([2] : Bytes) = p := Option.some.inj hp
      rw [← hp2]
      rfl)
    rfl

/-- C7 counterexample: the claim says a failure to spawn the replacement
process during the self-update restart is only logged and the run
continues; in the code `restart_program` calls `exit(1)` on that failure,
so the process terminates with a non-zero code instead of continuing. -/
theorem c7_counterexample :
    (restart_program (some "CraftMoonLauncher.exe") spawnNever).outcome =
      ExitOutcome.exitCode 1 ∧
    (restart_program (some "CraftMoonLauncher.exe") spawnNever).outcome ≠
      ExitOutcome.continues := by
  constructor <;> decide

/-- The launch step exits non-zero only when the target spawn fails. -/
theorem launch_game_nonzero (spawnOk : String → List String → Bool)
    (exePath : String) (code : Nat)
    (h : (launch_game spawnOk exePath).outcome = ExitOutcome.exitCode code)
    (hnz : code ≠ 0) : spawnOk exePath [] = false := by
  unfold launch_game at h
  cases hs : spawnOk exePath [] with
  | false => rfl
  | true =>
    rw [hs] at h
    simp only [if_true] at h
    have : (0 : Nat) = code := by
      have := ExitOutcome.exitCode.inj h
      exact this
    exact absurd this.symm hnz

/-- The self-update path exits non-zero only when the restart spawn of
the (resolved) current executable with `--no-self-update` fails. -/
theorem update_launcher_nonzero (env : Env) (r : Release)
    (curExe : Option String) (selfReplaceOk removeOk : Bool)
    (spawnOk : String → List String → Bool) (code : Nat)
    (h : (update_launcher env r curExe selfReplaceOk removeOk spawnOk).outcome =
      ExitOutcome.exitCode code)
    (hnz : code ≠ 0) :
    ∃ exe, curExe = some exe ∧ spawnOk exe ["--no-self-update"] = false := by
  unfold update_launcher at h
  cases hfe : findExeAsset r with
  | none =>
    simp only [hfe] at h
    exact ExitOutcome.noConfusion h
  | some a =>
    simp only [hfe] at h
    cases hcx : curExe with
    | none =>
      simp only [hcx] at h
      exact ExitOutcome.noConfusion h
    | some exe =>
      simp only [hcx] at h
      cases hdl : env.download a.browser_download_url with
      | none =>
        simp only [hdl] at h
        exact ExitOutcome.noConfusion h
      | some bytes =>
        simp only [hdl] at h
        cases hso : selfReplaceOk with
        | false =>
          simp only [hso, if_false] at h
          exact ExitOutcome.noConfusion h
        | true =>
          simp only [hso, if_true] at h
          cases hro : removeOk with
          | false =>
            simp only [hro, if_false] at h
            exact ExitOutcome.noConfusion h
          | true =>
            simp only [hro, if_true] at h
            unfold restart_program at h
            cases hsp : spawnOk exe ["--no-self-update"] with
            | false => exact ⟨exe, rfl, hsp⟩
            | true =>
              simp only [hsp, if_true] at h
              have h0 : (0 : Nat) = code := ExitOutcome.exitCode.inj h
              exact absurd h0.symm hnz

/-- C7 (amended): the worker's non-zero exits are exactly the failure to
spawn the target executable at the end and — contrary to the original
claim — the failure to spawn the replacement process inside
`restart_program`, which calls `exit(1)`; self-update failures before the
restart are only logged and the run continues to `launch_game`. -/
theorem c7_nonzero_exit_paths (noSelfUpdate : Bool)
    (fetched : Option (List Release)) (ver : String) (env : Env)
    (curExe : Option String) (selfReplaceOk removeOk : Bool)
    (spawnOk : String → List String → Bool) (gamePath : String) (code : Nat)
    (h : (workerFlow noSelfUpdate fetched ver env curExe selfReplaceOk removeOk
        spawnOk gamePath).outcome = ExitOutcome.exitCode code)
    (hnz : code ≠ 0) :
    spawnOk gamePath [] = false ∨
      ∃ exe, curExe = some exe ∧ spawnOk exe ["--no-self-update"] = false := by
  unfold workerFlow at h
  cases hns : noSelfUpdate with
  | true =>
    rw [hns] at h
    simp only [if_true] at h
    exact Or.inl (launch_game_nonzero spawnOk gamePath code h hnz)
  | false =>
    rw [hns] at h
    simp only [if_false] at h
    cases hch : (check_for_updated_release fetched ver true none).2 with
    | true =>
      rw [hch] at h
      simp only [if_true] at h
      exact Or.inl (launch_game_nonzero spawnOk gamePath code h hnz)
    | false =>
      simp only [hch, Bool.false_eq_true, if_false] at h
      cases hrel : (check_for_updated_release fetched ver true none).1 with
      | nil =>
        rw [hrel] at h
        exact ExitOutcome.noConfusion h
      | cons r rest =>
        simp only [hrel] at h
        cases ho : (update_launcher env r curExe selfReplaceOk removeOk spawnOk).outcome with
        | continues =>
          simp only [ho] at h
          exact Or.inl (launch_game_nonzero spawnOk gamePath code h hnz)
        | exitCode c =>
          simp only [ho] at h
          have hc : c = code := ExitOutcome.exitCode.inj h
          exact Or.inr (update_launcher_nonzero env r curExe selfReplaceOk
            removeOk spawnOk code (hc ▸ ho) hnz)

/-- C7 witness: a run whose restart spawn fails exits with code 1, and the
theorem locates the failing spawn. -/
theorem c7_witness :
    spawnNever "CraftMoon.exe" [] = false ∨
      ∃ exe, (some "CraftMoonLauncher.exe" : Option String) = some exe ∧
        spawnNever exe ["--no-self-update"] = false :=
  c7_nonzero_exit_paths false (some [demoR2]) "9.9" demoEnv
    (some "CraftMoonLauncher.exe") true true spawnNever "CraftMoon.exe" 1
    (by decide) (by decide)

/-- C8: when the self-update download, the executable replacement and the
temp-file deletion all succeed, the launcher spawns exactly one new process
— its own executable with the `--no-self-update` argument — and terminates
the current process with exit code 0; and a process started with that flag
performs no self-update check at all. -/
theorem c8_restart_protocol (env : Env) (rel : Release) (a : Asset)
    (exe : String) (bytes : Bytes) (spawnOk : String → List String → Bool)
    (hfind : findExeAsset rel = some a)
    (hdl : env.download a.browser_download_url = some bytes)
    (hspawn : spawnOk exe ["--no-self-update"] = true) :
    update_launcher env rel (some exe) true true spawnOk =
      ⟨ExitOutcome.exitCode 0, [(exe, ["--no-self-update"])]⟩ ∧
    ∀ fetched ver curExe selfReplaceOk removeOk gamePath,
      (workerFlow true fetched ver env curExe selfReplaceOk removeOk spawnOk
        gamePath).checkedSelf = false := by
  constructor
  · unfold update_launcher
    simp only [hfind, hdl, if_true]
    unfold restart_program
    simp only [hspawn, if_true]
  · intro fetched ver curExe selfReplaceOk removeOk gamePath
    rfl

/-- C8 witness: a successful self-update on the demo release restarts with
the skip-self-update flag and exits 0. -/
theorem c8_witness :
    update_launcher demoEnv demoR2 (some "CraftMoonLauncher.exe") true true
        spawnAlways =
      ⟨ExitOutcome.exitCode 0, [("CraftMoonLauncher.exe", ["--no-self-update"])]⟩ :=
  (c8_restart_protocol demoEnv demoR2 exeAssetR2 "CraftMoonLauncher.exe" [0]
    spawnAlways (by decide) rfl rfl).1

/-- C9: if the reinstall fallback fails — the latest release has no `.exe`
asset, or its direct download fails — the target file keeps exactly its
prior content, both for the fallback step itself and for a whole
`update_game` run that reinstalls because no release matched; the error is
logged once and never retried (the fallback is a single straight-line
attempt). -/
theorem c9_reinstall_failure (env : Env) (latest : Release)
    (target : Option Bytes)
    (h : findExeAsset latest = none ∨
      ∃ a, findExeAsset latest = some a ∧
        env.download a.browser_download_url = none) :
    (reinstallStep env latest target).1 = target ∧
    ∀ rest exeHash, installedReleaseIndex (latest :: rest) exeHash = none →
      (update_game env (latest :: rest) target exeHash).target = target := by
  have h1 : (reinstallStep env latest target).1 = target := by
    unfold reinstallStep
    rcases h with hnone | ⟨a, hfa, hdl⟩
    · rw [hnone]
    · rw [hfa]
      simp only [hdl]
  refine ⟨h1, ?_⟩
  intro rest exeHash hidx
  unfold update_game
  simp only [hidx, if_true]
  exact h1

/-- C9 witness: the latest release has no `.exe` asset; the target file is
untouched. -/
theorem c9_witness :
    (reinstallStep demoEnv noExeRelease (some [1])).1 = some [1] :=
  (c9_reinstall_failure demoEnv noExeRelease (some [1])
    (Or.inl (by decide))).1

/-- C10: whenever `check_for_updated_release` reports not running the
latest, the release list it returns is non-empty, and the game phase built
on it never reaches the unchecked `releases[0]` indexing of an empty list
(no panic). -/
theorem c10_no_empty_indexing (fetched : Option (List Release)) (ver : String)
    (su : Bool) (exeHash : Option String) (env : Env) (target : Option Bytes) :
    ((check_for_updated_release fetched ver su exeHash).2 = false →
      (check_for_updated_release fetched ver su exeHash).1 ≠ []) ∧
    (gamePhase env fetched exeHash target).panicked = false := by
  constructor
  · intro h
    cases fetched with
    | none => exact absurd h (by simp [check_for_updated_release])
    | some releases =>
      cases releases with
      | nil => exact absurd h (by simp [check_for_updated_release])
      | cons r rest => simp [check_for_updated_release]
  · unfold gamePhase
    cases fetched with
    | none => rfl
    | some releases =>
      cases releases with
      | nil => rfl
      | cons r rest =>
        cases hch : (check_for_updated_release (some (r :: rest)) "" false exeHash).2 with
        | true => simp [hch]
        | false =>
          simp only [hch, Bool.false_eq_true, if_false]
          have hfst : (check_for_updated_release (some (r :: rest)) "" false exeHash).1
              = r :: rest := rfl
          rw [hfst]
          simp [update_game_cons_not_panicked]

/-- C10 witness: an out-of-date self-update check on a one-release catalog
returns that non-empty list. -/
theorem c10_witness :
    (check_for_updated_release (some [demoR0]) "9.9" true none).1 ≠ [] :=
  (c10_no_empty_indexing (some [demoR0]) "9.9" true none demoEnv none).1
    (by decide)

end CraftMoon
